import Mathlib

/-!
# Verification of the breast-cancer prediction service (`src/app.py`)

This file gives a shallow embedding of the Flask application in `src/app.py`
and proves the specification claims about it.

Conventions of the embedding:
* Python floats are modelled by `PyFloat`: either a finite rational value, or
  one of the non-finite values `nan`, `inf`, `ninf`.  Rationals stand in for
  binary64 values; none of the claims depends on binary rounding.
* JSON values arriving in a request body are modelled by `JsonVal`; a request
  body is a `ReqBody` (a JSON object given as an association list, or JSON
  null — the case the claims exercise for non-object bodies).
* Python exceptions are modelled by `PyExc`; code that can raise returns
  `Except PyExc α`.  A Flask route handler catches at its boundary and always
  produces a structured response record carrying the HTTP status (every
  `jsonify(...)` return in `app.py` uses the default status 200).
* The classifier lives in `model.py`, which is not part of the sources; per
  the spec it is deterministic for fixed trained parameters, so the embedding
  passes the predictor in as a function `predictFn`.
-/

/-- A Python float: a finite rational value, or one of the three non-finite
values (`nan`, `+inf`, `-inf`).  Rationals idealise binary64. -/
inductive PyFloat where
  | finite (q : ℚ)
  | nan
  | inf
  | ninf
deriving DecidableEq, Repr

/-- Whether a `PyFloat` is a finite number (Python `math.isfinite`). -/
def PyFloat.isFinite : PyFloat → Bool
  | .finite _ => true
  | _ => false

/-- The Python comparison `x < 0` on a float: `nan < 0` and `inf < 0` are
`False`; `-inf < 0` is `True`. -/
def PyFloat.ltZero : PyFloat → Bool
  | .finite q => decide (q < 0)
  | .nan => false
  | .inf => false
  | .ninf => true

/-- ASCII whitespace stripped by Python `float(str)`. -/
def isPyWs (c : Char) : Bool :=
  c = ' ' || c = '\t' || c = '\n' || c = '\r' || c = '\x0b' || c = '\x0c'

/-- Strip leading and trailing whitespace from a character list. -/
def stripWs (cs : List Char) : List Char :=
  ((cs.dropWhile isPyWs).reverse.dropWhile isPyWs).reverse

/-- Split a character list into its maximal leading run of decimal digits and
the remainder. -/
def splitDigits : List Char → List Char × List Char
  | [] => ([], [])
  | c :: cs =>
    if c.isDigit then
      let p := splitDigits cs
      (c :: p.1, p.2)
    else ([], c :: cs)

/-- Numeric value of a digit run. -/
def digitsToNat (ds : List Char) : ℕ :=
  ds.foldl (fun a c => 10 * a + (c.toNat - 48)) 0

/-- Parse an optional exponent part `("e"|"E") sign? digits` at the head of the
input; returns the exponent and the remainder, or `none` when an `e`/`E` is
present but malformed. -/
def parseExpPart : List Char → Option (ℤ × List Char)
  | [] => some (0, [])
  | c :: rest =>
    if c = 'e' || c = 'E' then
      let sr : ℤ × List Char :=
        match rest with
        | '+' :: r => (1, r)
        | '-' :: r => (-1, r)
        | r => (1, r)
      let p := splitDigits sr.2
      if p.1 = [] then none else some (sr.1 * (digitsToNat p.1 : ℤ), p.2)
    else some (0, c :: rest)

/-- Parse an unsigned decimal literal `digits ["." digits?] [exp]` /
`"." digits [exp]`, requiring the whole input be consumed.  This is the core
grammar of Python `float` (digit-group underscores are not modelled; no claim
involves them). -/
def parseDecimalNum (cs : List Char) : Option ℚ :=
  let ip := splitDigits cs
  let fp : List Char × List Char :=
    match ip.2 with
    | '.' :: rest => splitDigits rest
    | r => ([], r)
  if ip.1 = [] ∧ fp.1 = [] then none
  else
    match parseExpPart fp.2 with
    | none => none
    | some er =>
      if er.2 = [] then
        some (((digitsToNat ip.1 : ℚ) + (digitsToNat fp.1 : ℚ) / 10 ^ fp.1.length)
              * 10 ^ er.1)
      else none

/-- Python `float(s)` on a string: strip whitespace, optional sign, then either
the case-insensitive words `nan` / `inf` / `infinity` or a decimal literal.
`none` models the `ValueError` raised on unparseable input. -/
def pyParseFloat (s : String) : Option PyFloat :=
  let cs := stripWs s.toList
  let sp : Bool × List Char :=
    match cs with
    | '+' :: r => (false, r)
    | '-' :: r => (true, r)
    | r => (false, r)
  let low := sp.2.map Char.toLower
  if low = ['n', 'a', 'n'] then some .nan
  else if low = ['i', 'n', 'f'] || low = ['i', 'n', 'f', 'i', 'n', 'i', 't', 'y'] then
    some (if sp.1 then .ninf else .inf)
  else
    match parseDecimalNum sp.2 with
    | none => none
    | some q => some (.finite (if sp.1 then -q else q))

/-- A JSON value as delivered by Flask `request.get_json()` for a field of the
body.  Arrays and nested objects are opaque: the application only ever passes
them to `float(...)`, which raises `TypeError` on them. -/
inductive JsonVal where
  | num (x : PyFloat)
  | str (s : String)
  | boolean (b : Bool)
  | null
  | arr
  | obj
deriving DecidableEq, Repr

/-- Python `float(v)` on a JSON-derived value: numbers pass through, strings
are parsed, booleans coerce to `0.0`/`1.0`, and `None`/lists/objects raise
`TypeError` (modelled as `none`; `app.py` catches `ValueError` and `TypeError`
identically). -/
def pyFloatOf : JsonVal → Option PyFloat
  | .num x => some x
  | .str s => pyParseFloat s
  | .boolean b => some (.finite (if b then 1 else 0))
  | .null => none
  | .arr => none
  | .obj => none

/-- First-match association-list lookup, modelling `d[k]` / `k in d` on the
parsed JSON object (whose keys are unique). -/
def lookupKey {α : Type} : List (String × α) → String → Option α
  | [], _ => none
  | p :: rest, n => if p.1 = n then some p.2 else lookupKey rest n

/-- The three validation failures of `app.py` lines 36–55, in the spec's
taxonomy. -/
inductive ValidationError where
  | missingField (name : String)
  | invalidNumber (name : String)
  | negativeValue (name : String)
deriving DecidableEq, Repr

/-- The error message `app.py` attaches to each validation failure. -/
def validationMessage : ValidationError → String
  | .missingField n => "Metric missing: " ++ n
  | .invalidNumber n => "Invalid numeric entry for: " ++ n
  | .negativeValue n => "Field " ++ n ++ " must contain a non-negative value"

/-- Python dict assignment `d[k] = v`: overwrite in place if the key exists,
otherwise append at the end (insertion order). -/
def dictInsert (d : List (String × PyFloat)) (k : String) (v : PyFloat) :
    List (String × PyFloat) :=
  if d.any (fun p => p.1 = k) then
    d.map (fun p => if p.1 = k then (k, v) else p)
  else d ++ [(k, v)]

/-- The validation loop of `process_biopsy_data` (`app.py` lines 36–55): for
each feature name in schema order, return `MissingField` if the key is absent,
`InvalidNumber` if `float(...)` raises, `NegativeValue` if the parsed value is
`< 0`; otherwise store the value in the `validated_input` dict and continue. -/
def validateLoop (entries : List (String × JsonVal)) :
    List String → List (String × PyFloat) →
    Except ValidationError (List (String × PyFloat))
  | [], acc => .ok acc
  | name :: rest, acc =>
    match lookupKey entries name with
    | none => .error (.missingField name)
    | some v =>
      match pyFloatOf v with
      | none => .error (.invalidNumber name)
      | some x =>
        if x.ltZero then .error (.negativeValue name)
        else validateLoop entries rest (dictInsert acc name x)

/-- The outcome of validating a single field, stated from the spec's
`validate` contract (§4.2): `MissingField` if absent, `InvalidNumber` if not
parseable as a float, `NegativeValue` if the parsed value is `< 0`, no error
otherwise.  Used to compare `validateLoop` against the spec's fail-fast
description. -/
def fieldCheck (entries : List (String × JsonVal)) (name : String) :
    Option ValidationError :=
  match lookupKey entries name with
  | none => some (.missingField name)
  | some v =>
    match pyFloatOf v with
    | none => some (.invalidNumber name)
    | some x => if x.ltZero then some (.negativeValue name) else none

/-- Python exceptions the handlers can catch. -/
inductive PyExc where
  | typeError (msg : String)
  | valueError (msg : String)
  | keyError (msg : String)
  | indexError (msg : String)
  | other (msg : String)
deriving DecidableEq, Repr

/-- `str(exc)`, the message the handlers embed in their error responses. -/
def PyExc.message : PyExc → String
  | .typeError m => m
  | .valueError m => m
  | .keyError m => m
  | .indexError m => m
  | .other m => m

/-- Round half to even, Python's `round` tie-breaking rule. -/
def roundHalfEven (x : ℚ) : ℤ :=
  let f := ⌊x⌋
  let r := x - f
  if r < 1 / 2 then f
  else if 1 / 2 < r then f + 1
  else if f % 2 = 0 then f else f + 1

/-- Python `round(x, 1)`: round to one decimal place, ties to even. -/
def pyRound1 (x : ℚ) : ℚ := (roundHalfEven (10 * x) : ℚ) / 10

/-- The JSON body of a `POST /predict` request: a JSON object, or JSON null
(`request.get_json()` then yields `None`, and `name not in None` raises
`TypeError`). -/
inductive ReqBody where
  | obj (entries : List (String × JsonVal))
  | null
deriving DecidableEq, Repr

/-- The structured JSON response of the `/predict` route, together with the
HTTP status (every `jsonify` return in `app.py` uses the default 200). -/
structure DiagnosisResponse where
  status : ℕ
  success : Bool
  diagnosis : Option String := none
  is_benign : Option Bool := none
  confidence : Option ℚ := none
  message : Option String := none
  disclaimer : Option String := none
  error : Option String := none
deriving DecidableEq, Repr

/-- The fixed disclaimer string of `app.py` line 71. -/
def academicDisclaimer : String :=
  "This AI tool is for academic use only. Consult medical professionals for clinical validation."

/-- The body of the `try` block of `process_biopsy_data` (`app.py` lines
32–72): validation, inference, and label mapping; `Except.error` models an
uncaught Python exception reaching the outer handler.  `predictFn` is the
classifier (`model.py` is not among the sources; per spec §4.1 `predict` is a
deterministic function of the trained parameters and the input, and may
raise — hence the `Except`). -/
def predictTry (schema : List String)
    (predictFn : List (String × PyFloat) → Except PyExc (ℤ × ℚ)) :
    ReqBody → Except PyExc DiagnosisResponse
  | .null => .error (.typeError "argument of type 'NoneType' is not iterable")
  | .obj entries =>
    match validateLoop entries schema [] with
    | .error e =>
      .ok { status := 200, success := false, error := some (validationMessage e) }
    | .ok validated =>
      match predictFn validated with
      | .error exc => .error exc
      | .ok res =>
        let isNonCancerous : Bool := res.1 = 1
        let certaintyLevel : ℚ := if isNonCancerous then res.2 else 1 - res.2
        .ok { status := 200
              success := true
              diagnosis := some (if isNonCancerous then "Benign" else "Malignant")
              is_benign := some isNonCancerous
              confidence := some (pyRound1 (certaintyLevel * 100))
              message := some (if isNonCancerous then
                  "✓ Analysis suggests a BENIGN (non-cancerous) tumor"
                else "⚠️ Analysis suggests a MALIGNANT (cancerous) tumor")
              disclaimer := some academicDisclaimer }

/-- The `/predict` route handler (`app.py` lines 28–78): run the `try` body
and catch any exception at the boundary, returning `success=false` with
`str(failure)` as the error. -/
def process_biopsy_data (schema : List String)
    (predictFn : List (String × PyFloat) → Except PyExc (ℤ × ℚ))
    (body : ReqBody) : DiagnosisResponse :=
  match predictTry schema predictFn body with
  | .ok r => r
  | .error failure => { status := 200, success := false, error := some failure.message }

/-- A row of the CSV dataset, keyed by column name. -/
abbrev Row : Type := List (String × ℚ)

/-- Column access `row[c]` on a row. -/
def rowVal (r : Row) (c : String) : Option ℚ := lookupKey r c

/-- `series.drop(label)`: the row with the given column removed. -/
def dropCol (r : Row) (c : String) : Row :=
  List.filter (fun p => p.1 ≠ c) r

/-- The structured JSON response of the `/sample-data` route, with HTTP
status. -/
structure SampleResponse where
  status : ℕ
  success : Bool
  benign_sample : Option Row := none
  malignant_sample : Option Row := none
  error : Option String := none
deriving DecidableEq

/-- The body of the `try` block of `fetch_example_metrics` (`app.py` lines
84–97).  `readCsv` is the outcome of `pd.read_csv` (raises on a missing or
malformed file).  `df[df['diagnosis'] == 1]` raises `KeyError` when the
`diagnosis` column is absent; `.iloc[0]` raises `IndexError` when no row of
the requested class exists; otherwise the first matching row is taken and its
`diagnosis` entry dropped. -/
def sampleTry (readCsv : Except PyExc (List Row)) : Except PyExc (Row × Row) :=
  match readCsv with
  | .error e => .error e
  | .ok df =>
    if df.all (fun r => (rowVal r "diagnosis").isSome) then
      match (df.filter (fun r => rowVal r "diagnosis" = some 1)).head? with
      | none => .error (.indexError "single positional indexer is out-of-bounds")
      | some caseBenign =>
        match (df.filter (fun r => rowVal r "diagnosis" = some 0)).head? with
        | none => .error (.indexError "single positional indexer is out-of-bounds")
        | some caseMalignant =>
          .ok (dropCol caseBenign "diagnosis", dropCol caseMalignant "diagnosis")
    else .error (.keyError "diagnosis")

/-- The `/sample-data` route handler (`app.py` lines 80–102): run the `try`
body and catch any exception at the boundary. -/
def fetch_example_metrics (readCsv : Except PyExc (List Row)) : SampleResponse :=
  match sampleTry readCsv with
  | .ok cases =>
    { status := 200, success := true
      benign_sample := some cases.1, malignant_sample := some cases.2 }
  | .error exc => { status := 200, success := false, error := some exc.message }

/-- The persistent state the bootstrap interacts with: whether trained model
weights are present on disk. -/
structure World where
  modelOnDisk : Bool
deriving DecidableEq, Repr

/-- Modelled from the spec: `model.py` is not among the sources.  Per spec
§4.1, `load_model` deserialises from a fixed path and returns `False` (not an
error) when the file is absent. -/
def load_model (w : World) : Bool := w.modelOnDisk

/-- Modelled from the spec: `model.py` is not among the sources.  Per spec
§4.1/§4.3, `train_and_save_model` fits the classifier and writes the model
file to disk. -/
def train_and_save_model (_ : World) : World := ⟨true⟩

/-- Observable lifecycle events of the application process. -/
inductive AppEvent where
  | loadAttempt (success : Bool)
  | trainRun
  | serveRequest
deriving DecidableEq, Repr

/-- The bootstrap `initialize_diagnostic_engine` of `app.py` lines 12–18: try
to load the model; only if that fails, train once and load again.  Returns the
resulting world and the trace of lifecycle events. -/
def bootstrapEngine (w : World) : World × List AppEvent :=
  if load_model w then (w, [.loadAttempt true])
  else
    let w1 := train_and_save_model w
    (w1, [.loadAttempt false, .trainRun, .loadAttempt (load_model w1)])

/-- The process lifecycle of `app.py`: the bootstrap runs at module load
(line 21), before `app.run` starts serving; each subsequent request is handled
by a route (`process_biopsy_data` / `fetch_example_metrics`), neither of which
calls the trainer. -/
def appRun (w : World) (requests : List ReqBody) : List AppEvent :=
  (bootstrapEngine w).2 ++ requests.map (fun _ => .serveRequest)

/-! ## Validation: fail-fast characterisation -/

/-- The first validation violation in schema order, per the spec of
`validate` (§4.2). -/
def firstViolation (entries : List (String × JsonVal)) :
    List String → Option ValidationError
  | [] => none
  | n :: rest =>
    match fieldCheck entries n with
    | some e => some e
    | none => firstViolation entries rest

lemma validateLoop_error_iff_firstViolation (entries : List (String × JsonVal))
    (e : ValidationError) :
    ∀ (schema : List String) (acc : List (String × PyFloat)),
      validateLoop entries schema acc = .error e ↔
        firstViolation entries schema = some e := by
  intro schema
  induction schema with
  | nil => intro acc; simp [validateLoop, firstViolation]
  | cons n rest ih =>
    intro acc
    cases hl : lookupKey entries n with
    | none => simp [validateLoop, firstViolation, fieldCheck, hl]
    | some v =>
      cases hf : pyFloatOf v with
      | none => simp [validateLoop, firstViolation, fieldCheck, hl, hf]
      | some x =>
        cases hz : x.ltZero with
        | true => simp [validateLoop, firstViolation, fieldCheck, hl, hf, hz]
        | false => simp [validateLoop, firstViolation, fieldCheck, hl, hf, hz, ih]

lemma firstViolation_eq_some_iff (entries : List (String × JsonVal)) :
    ∀ (schema : List String) (e : ValidationError),
      firstViolation entries schema = some e ↔
        ∃ pre name post, schema = pre ++ name :: post ∧
          (∀ m ∈ pre, fieldCheck entries m = none) ∧
          fieldCheck entries name = some e := by
  intro schema
  induction schema with
  | nil =>
    intro e
    constructor
    · intro h; simp [firstViolation] at h
    · rintro ⟨pre, name, post, hdec, -, -⟩
      exact absurd hdec.symm (List.append_ne_nil_of_right_ne_nil pre (List.cons_ne_nil _ _))
  | cons n rest ih =>
    intro e
    constructor
    · intro h
      unfold firstViolation at h
      cases hc : fieldCheck entries n with
      | some e0 =>
        rw [hc] at h
        refine ⟨[], n, rest, rfl, by simp, ?_⟩
        simpa using hc.trans h
      | none =>
        rw [hc] at h
        obtain ⟨pre, name, post, hdec, hpre, hname⟩ := (ih e).1 h
        refine ⟨n :: pre, name, post, by rw [hdec]; rfl, ?_, hname⟩
        intro m hm
        rcases List.mem_cons.1 hm with hm | hm
        · exact hm ▸ hc
        · exact hpre m hm
    · rintro ⟨pre, name, post, hdec, hpre, hname⟩
      cases pre with
      | nil =>
        simp only [List.nil_append] at hdec
        injection hdec with h1 h2
        unfold firstViolation
        rw [← h1] at hname
        rw [hname]
      | cons p pre1 =>
        simp only [List.cons_append] at hdec
        injection hdec with h1 h2
        unfold firstViolation
        have hn : fieldCheck entries n = none := by rw [h1]; exact hpre p (by simp)
        rw [hn]
        exact (ih e).2 ⟨pre1, name, post, h2, fun m hm => hpre m (by simp [hm]), hname⟩

/-- C1: validation checks the schema names in order and is fail-fast —
`validateLoop` fails with error `e` exactly when the schema splits as
`pre ++ name :: post` where every field before `name` passes its check and
`name` is the first violation, the per-field check returning `MissingField`
when the key is absent, `InvalidNumber` when `float` fails, and
`NegativeValue` when the parsed value is negative; fields after the first
violation never influence the result. -/
theorem validate_fail_fast_first_violation (schema : List String)
    (entries : List (String × JsonVal)) (e : ValidationError) :
    validateLoop entries schema [] = .error e ↔
      ∃ pre name post, schema = pre ++ name :: post ∧
        (∀ m ∈ pre, fieldCheck entries m = none) ∧
        fieldCheck entries name = some e :=
  (validateLoop_error_iff_firstViolation entries e schema []).trans
    (firstViolation_eq_some_iff entries schema e)

/-- C1 witness: on the two-field schema `["a", "b"]` with both fields absent,
validation reports the first missing field `"a"`. -/
theorem validate_fail_fast_witness :
    validateLoop [] ["a", "b"] [] = .error (.missingField "a") :=
  (validate_fail_fast_first_violation ["a", "b"] [] (.missingField "a")).2
    ⟨[], "a", ["b"], rfl, by simp, by decide⟩

/-! ## Rounding bounds -/

lemma roundHalfEven_cases (x : ℚ) :
    roundHalfEven x = ⌊x⌋ ∨ (roundHalfEven x = ⌊x⌋ + 1 ∧ 1 / 2 ≤ x - ⌊x⌋) := by
  simp only [roundHalfEven]
  split_ifs with h1 h2 h3
  · exact Or.inl rfl
  · exact Or.inr ⟨rfl, le_of_lt h2⟩
  · exact Or.inl rfl
  · exact Or.inr ⟨rfl, le_of_not_lt h1⟩

lemma roundHalfEven_nonneg (x : ℚ) (hx : 0 ≤ x) : 0 ≤ roundHalfEven x := by
  have hf : (0 : ℤ) ≤ ⌊x⌋ := Int.floor_nonneg.2 hx
  rcases roundHalfEven_cases x with h | ⟨h, -⟩ <;> omega

lemma roundHalfEven_le (x : ℚ) (b : ℤ) (hx : x ≤ b) : roundHalfEven x ≤ b := by
  have hfb : ⌊x⌋ ≤ b := by
    calc ⌊x⌋ ≤ ⌊(b : ℚ)⌋ := Int.floor_le_floor hx
    _ = b := Int.floor_intCast b
  rcases roundHalfEven_cases x with h | ⟨h, hr⟩
  · omega
  · have hfl : (⌊x⌋ : ℚ) + 1 / 2 ≤ x := by linarith
    have : (⌊x⌋ : ℚ) < (b : ℚ) := by linarith
    have : ⌊x⌋ < b := by exact_mod_cast this
    omega

lemma pyRound1_mem_Icc (x : ℚ) (h0 : 0 ≤ x) (h1 : x ≤ 100) :
    0 ≤ pyRound1 x ∧ pyRound1 x ≤ 100 := by
  unfold pyRound1
  have hnn : (0 : ℤ) ≤ roundHalfEven (10 * x) :=
    roundHalfEven_nonneg _ (by linarith)
  have hub : roundHalfEven (10 * x) ≤ (1000 : ℤ) :=
    roundHalfEven_le _ 1000 (by push_cast; linarith)
  have hnn2 : (0 : ℚ) ≤ (roundHalfEven (10 * x) : ℚ) := by exact_mod_cast hnn
  have hub2 : ((roundHalfEven (10 * x) : ℚ)) ≤ 1000 := by exact_mod_cast hub
  constructor
  · linarith
  · linarith

/-! ## C2: valid inputs produce a well-formed diagnosis -/

lemma validateLoop_ok_of_checks (entries : List (String × JsonVal)) :
    ∀ (schema : List String) (acc : List (String × PyFloat)),
      (∀ n ∈ schema, fieldCheck entries n = none) →
      ∃ d, validateLoop entries schema acc = .ok d := by
  intro schema
  induction schema with
  | nil => intro acc _; exact ⟨acc, rfl⟩
  | cons n rest ih =>
    intro acc hall
    have hn := hall n (by simp)
    cases hl : lookupKey entries n with
    | none => simp [fieldCheck, hl] at hn
    | some v =>
      cases hf : pyFloatOf v with
      | none => simp [fieldCheck, hl, hf] at hn
      | some x =>
        cases hz : x.ltZero with
        | true => simp [fieldCheck, hl, hf, hz] at hn
        | false =>
          obtain ⟨d, hd⟩ := ih (dictInsert acc n x) (fun m hm => hall m (by simp [hm]))
          refine ⟨d, ?_⟩
          simp only [validateLoop, hl, hf, hz]
          exact hd

lemma process_ok_shape (schema : List String)
    (predictFn : List (String × PyFloat) → Except PyExc (ℤ × ℚ))
    (entries : List (String × JsonVal)) (d : List (String × PyFloat))
    (lab : ℤ) (p : ℚ)
    (hd : validateLoop entries schema [] = .ok d)
    (hf : predictFn d = .ok (lab, p)) :
    process_biopsy_data schema predictFn (.obj entries) =
      { status := 200
        success := true
        diagnosis := some (if lab = 1 then "Benign" else "Malignant")
        is_benign := some (decide (lab = 1))
        confidence := some (pyRound1 ((if lab = 1 then p else 1 - p) * 100))
        message := some (if lab = 1 then
            "✓ Analysis suggests a BENIGN (non-cancerous) tumor"
          else "⚠️ Analysis suggests a MALIGNANT (cancerous) tumor")
        disclaimer := some academicDisclaimer } := by
  simp only [process_biopsy_data, predictTry, hd, hf]
  by_cases hlab : lab = 1 <;> simp [hlab]

/-- C2: an input carrying every schema field with a numeric, non-negative
value passes validation, and — when the model yields a probability in `[0,1]`
— the response has `success = true`, a diagnosis that is `"Benign"` or
`"Malignant"`, and a confidence within `[0, 100]`. -/
theorem valid_input_yields_diagnosis (schema : List String)
    (entries : List (String × JsonVal))
    (predictFn : List (String × PyFloat) → Except PyExc (ℤ × ℚ))
    (hall : ∀ n ∈ schema, fieldCheck entries n = none)
    (hpred : ∀ d, ∃ lab p, predictFn d = .ok (lab, p) ∧ 0 ≤ p ∧ p ≤ 1) :
    (∃ d, validateLoop entries schema [] = .ok d) ∧
    (process_biopsy_data schema predictFn (.obj entries)).success = true ∧
    ((process_biopsy_data schema predictFn (.obj entries)).diagnosis = some "Benign" ∨
     (process_biopsy_data schema predictFn (.obj entries)).diagnosis = some "Malignant") ∧
    (∃ c, (process_biopsy_data schema predictFn (.obj entries)).confidence = some c ∧
      0 ≤ c ∧ c ≤ 100) := by
  obtain ⟨d, hd⟩ := validateLoop_ok_of_checks entries schema [] hall
  obtain ⟨lab, p, hf, hp0, hp1⟩ := hpred d
  rw [process_ok_shape schema predictFn entries d lab p hd hf]
  refine ⟨⟨d, hd⟩, rfl, ?_, ?_⟩
  · by_cases hlab : lab = 1 <;> simp [hlab]
  · refine ⟨_, rfl, ?_⟩
    by_cases hlab : lab = 1
    · simp only [hlab, if_pos]
      exact pyRound1_mem_Icc (p * 100) (by linarith) (by linarith)
    · rw [if_neg hlab]
      exact pyRound1_mem_Icc ((1 - p) * 100) (by linarith) (by linarith)

/-- A concrete deterministic predictor used to witness the theorems (the spec
fixes no particular classifier, only a probability estimate in `[0,1]`). -/
def demoPredict : List (String × PyFloat) → Except PyExc (ℤ × ℚ) :=
  fun _ => .ok (1, 9 / 10)

/-- C2 witness: the single-field input `a = 1` with a predictor that answers
`(1, 0.9)` produces a benign diagnosis with confidence 90. -/
theorem valid_input_yields_diagnosis_witness :
    (∃ d, validateLoop [("a", JsonVal.num (.finite 1))] ["a"] [] = .ok d) ∧
    (process_biopsy_data ["a"] demoPredict
        (.obj [("a", JsonVal.num (.finite 1))])).success = true ∧
    ((process_biopsy_data ["a"] demoPredict
        (.obj [("a", JsonVal.num (.finite 1))])).diagnosis = some "Benign" ∨
     (process_biopsy_data ["a"] demoPredict
        (.obj [("a", JsonVal.num (.finite 1))])).diagnosis = some "Malignant") ∧
    (∃ c, (process_biopsy_data ["a"] demoPredict
        (.obj [("a", JsonVal.num (.finite 1))])).confidence = some c ∧
      0 ≤ c ∧ c ≤ 100) :=
  valid_input_yields_diagnosis ["a"] [("a", JsonVal.num (.finite 1))] demoPredict
    (by decide) (fun _ => ⟨1, 9 / 10, rfl, by norm_num, by norm_num⟩)

/-! ## C3: label and confidence mapping -/

/-- Derived confidence, stated from the spec (§3): the predicted probability
when the label is Benign (1), otherwise its complement. -/
def derivedConfidence (lab : ℤ) (p : ℚ) : ℚ := if lab = 1 then p else 1 - p

/-- C3: for every predicted `(classLabel, probability)` pair, the response
maps label 1 to `"Benign"` and any other label to `"Malignant"`, sets
`is_benign` to `classLabel == 1`, computes the confidence as the derived
confidence times 100 rounded to one decimal, and attaches the fixed
academic-use disclaimer. -/
theorem prediction_response_mapping (schema : List String)
    (entries : List (String × JsonVal))
    (predictFn : List (String × PyFloat) → Except PyExc (ℤ × ℚ))
    (d : List (String × PyFloat)) (lab : ℤ) (p : ℚ)
    (hd : validateLoop entries schema [] = .ok d)
    (hf : predictFn d = .ok (lab, p)) :
    (process_biopsy_data schema predictFn (.obj entries)).diagnosis =
      some (if lab = 1 then "Benign" else "Malignant") ∧
    (process_biopsy_data schema predictFn (.obj entries)).is_benign =
      some (decide (lab = 1)) ∧
    (process_biopsy_data schema predictFn (.obj entries)).confidence =
      some (pyRound1 (derivedConfidence lab p * 100)) ∧
    (process_biopsy_data schema predictFn (.obj entries)).disclaimer =
      some academicDisclaimer := by
  rw [process_ok_shape schema predictFn entries d lab p hd hf]
  exact ⟨rfl, rfl, rfl, rfl⟩

/-- A concrete predictor answering label 0 (malignant) with probability 3/4,
used to witness the malignant branch of the mapping. -/
def demoPredictMal : List (String × PyFloat) → Except PyExc (ℤ × ℚ) :=
  fun _ => .ok (0, 3 / 4)

/-- C3 witness: with predicted label 0 and probability 3/4, the response reads
`Malignant`, `is_benign = false`, confidence `25.0`, and carries the
disclaimer. -/
theorem prediction_response_mapping_witness :
    (process_biopsy_data ["a"] demoPredictMal
        (.obj [("a", JsonVal.num (.finite 1))])).diagnosis = some "Malignant" ∧
    (process_biopsy_data ["a"] demoPredictMal
        (.obj [("a", JsonVal.num (.finite 1))])).is_benign = some false ∧
    (process_biopsy_data ["a"] demoPredictMal
        (.obj [("a", JsonVal.num (.finite 1))])).confidence = some 25 ∧
    (process_biopsy_data ["a"] demoPredictMal
        (.obj [("a", JsonVal.num (.finite 1))])).disclaimer =
      some academicDisclaimer := by
  have h := prediction_response_mapping ["a"] [("a", JsonVal.num (.finite 1))]
    demoPredictMal [("a", PyFloat.finite 1)] 0 (3 / 4) rfl rfl
  have hc : pyRound1 (derivedConfidence 0 (3 / 4) * 100) = 25 := by
    norm_num [derivedConfidence, pyRound1, roundHalfEven]
  rw [hc] at h
  simpa using h

/-! ## C7: determinism of the diagnose path -/

/-- Two successive invocations of the `/predict` handler with the same body
and the same trained model. -/
def diagnoseTwice (schema : List String)
    (predictFn : List (String × PyFloat) → Except PyExc (ℤ × ℚ))
    (body : ReqBody) : DiagnosisResponse × DiagnosisResponse :=
  (process_biopsy_data schema predictFn body,
   process_biopsy_data schema predictFn body)

/-- C7: calling the predict path twice with an identical body and unchanged
model state yields identical responses — same diagnosis, `is_benign`,
confidence, message and disclaimer (the predictor is a fixed function of the
trained parameters, which is the spec determinism assumption). -/
theorem diagnose_idempotent (schema : List String)
    (predictFn : List (String × PyFloat) → Except PyExc (ℤ × ℚ))
    (body : ReqBody) :
    (diagnoseTwice schema predictFn body).1.diagnosis =
      (diagnoseTwice schema predictFn body).2.diagnosis ∧
    (diagnoseTwice schema predictFn body).1.is_benign =
      (diagnoseTwice schema predictFn body).2.is_benign ∧
    (diagnoseTwice schema predictFn body).1.confidence =
      (diagnoseTwice schema predictFn body).2.confidence ∧
    (diagnoseTwice schema predictFn body).1.message =
      (diagnoseTwice schema predictFn body).2.message ∧
    (diagnoseTwice schema predictFn body).1.disclaimer =
      (diagnoseTwice schema predictFn body).2.disclaimer ∧
    (diagnoseTwice schema predictFn body).1 =
      (diagnoseTwice schema predictFn body).2 :=
  ⟨rfl, rfl, rfl, rfl, rfl, rfl⟩

/-! ## C10: a null JSON body is caught at the handler boundary -/

/-- C10: when the request body is JSON null, the membership test raises
`TypeError`, which the outer catch-all turns into a `success = false`
response with an error message — the handler does not crash. -/
theorem null_body_caught (schema : List String)
    (predictFn : List (String × PyFloat) → Except PyExc (ℤ × ℚ)) :
    process_biopsy_data schema predictFn .null =
      { status := 200, success := false,
        error := some "argument of type \x27NoneType\x27 is not iterable" } :=
  rfl

/-! ## C4: exceptions are caught at the route boundary -/

/-- C4: both route handlers always return a structured response with HTTP
status 200 and a success flag — a response either succeeds or carries an
error message — and any exception escaping the `try` body is surfaced as
`success = false` with `str(exc)` as the error, never propagated. -/
theorem handlers_catch_exceptions :
    (∀ (schema : List String)
       (predictFn : List (String × PyFloat) → Except PyExc (ℤ × ℚ))
       (body : ReqBody),
      (process_biopsy_data schema predictFn body).status = 200 ∧
      ((process_biopsy_data schema predictFn body).success = true ∨
       ((process_biopsy_data schema predictFn body).success = false ∧
        (process_biopsy_data schema predictFn body).error.isSome = true))) ∧
    (∀ (schema : List String)
       (predictFn : List (String × PyFloat) → Except PyExc (ℤ × ℚ))
       (body : ReqBody) (exc : PyExc),
      predictTry schema predictFn body = .error exc →
      process_biopsy_data schema predictFn body =
        { status := 200, success := false, error := some exc.message }) ∧
    (∀ readCsv : Except PyExc (List Row),
      (fetch_example_metrics readCsv).status = 200 ∧
      ((fetch_example_metrics readCsv).success = true ∨
       ((fetch_example_metrics readCsv).success = false ∧
        (fetch_example_metrics readCsv).error.isSome = true))) ∧
    (∀ (readCsv : Except PyExc (List Row)) (exc : PyExc),
      sampleTry readCsv = .error exc →
      fetch_example_metrics readCsv =
        { status := 200, success := false, error := some exc.message }) := by
  refine ⟨?_, ?_, ?_, ?_⟩
  · intro schema predictFn body
    cases body with
    | null => simp [process_biopsy_data, predictTry]
    | obj entries =>
      cases hv : validateLoop entries schema [] with
      | error e => simp [process_biopsy_data, predictTry, hv]
      | ok d =>
        cases hp : predictFn d with
        | error exc => simp [process_biopsy_data, predictTry, hv, hp]
        | ok res => simp [process_biopsy_data, predictTry, hv, hp]
  · intro schema predictFn body exc h
    simp [process_biopsy_data, h]
  · intro readCsv
    cases hs : sampleTry readCsv with
    | error exc => simp [fetch_example_metrics, hs]
    | ok cases2 => simp [fetch_example_metrics, hs]
  · intro readCsv exc h
    simp [fetch_example_metrics, h]

/-- C4 witness: a null body makes the `try` block raise; the handler catches
it and answers with `success = false` and the exception text. -/
theorem handlers_catch_exceptions_witness :
    process_biopsy_data ["a"] demoPredict .null =
      { status := 200, success := false,
        error := some "argument of type \x27NoneType\x27 is not iterable" } :=
  handlers_catch_exceptions.2.1 ["a"] demoPredict .null
    (.typeError "argument of type \x27NoneType\x27 is not iterable") rfl

/-! ## C8: the validated dict carries exactly the schema keys -/

lemma dictInsert_of_not_mem (d : List (String × PyFloat)) (k : String) (v : PyFloat)
    (h : ∀ p ∈ d, p.1 ≠ k) : dictInsert d k v = d ++ [(k, v)] := by
  unfold dictInsert
  rw [if_neg]
  simp only [List.any_eq_true, decide_eq_true_eq, not_exists, not_and]
  exact h

lemma validateLoop_ok_keys (entries : List (String × JsonVal)) :
    ∀ (schema : List String) (acc d : List (String × PyFloat)),
      schema.Nodup →
      (∀ n ∈ schema, ∀ p ∈ acc, p.1 ≠ n) →
      validateLoop entries schema acc = .ok d →
      d.map Prod.fst = acc.map Prod.fst ++ schema := by
  intro schema
  induction schema with
  | nil =>
    intro acc d _ _ h
    simp only [validateLoop, Except.ok.injEq] at h
    simp [← h]
  | cons n rest ih =>
    intro acc d hnd hdisj h
    cases hl : lookupKey entries n with
    | none => simp [validateLoop, hl] at h
    | some v =>
      cases hf : pyFloatOf v with
      | none => simp [validateLoop, hl, hf] at h
      | some x =>
        cases hz : x.ltZero with
        | true => simp [validateLoop, hl, hf, hz] at h
        | false =>
          simp only [validateLoop, hl, hf, hz] at h
          have hacc : dictInsert acc n x = acc ++ [(n, x)] :=
            dictInsert_of_not_mem acc n x (fun p hp => hdisj n (by simp) p hp)
          rw [hacc] at h
          have hnotin : n ∉ rest := (List.nodup_cons.1 hnd).1
          have hdisj2 : ∀ m ∈ rest, ∀ p ∈ acc ++ [(n, x)], p.1 ≠ m := by
            intro m hm p hp
            rcases List.mem_append.1 hp with hp | hp
            · exact hdisj m (by simp [hm]) p hp
            · simp only [List.mem_singleton] at hp
              rw [hp]
              intro he
              exact hnotin (by rw [← he] at hm; exact hm)
          have hkeys := ih (acc ++ [(n, x)]) d (List.nodup_cons.1 hnd).2 hdisj2 h
          rw [hkeys]
          simp

lemma lookupKey_append {α : Type} (l1 l2 : List (String × α)) (n : String) :
    lookupKey (l1 ++ l2) n =
      match lookupKey l1 n with
      | some v => some v
      | none => lookupKey l2 n := by
  induction l1 with
  | nil => simp [lookupKey]
  | cons p rest ih =>
    by_cases hp : p.1 = n <;> simp [lookupKey, hp, ih]

lemma lookupKey_eq_none_of_no_key {α : Type} (l : List (String × α)) (n : String)
    (h : ∀ p ∈ l, p.1 ≠ n) : lookupKey l n = none := by
  induction l with
  | nil => rfl
  | cons p rest ih =>
    have hp := h p (by simp)
    simp only [lookupKey, if_neg hp]
    exact ih (fun q hq => h q (by simp [hq]))

lemma validateLoop_congr (entries1 entries2 : List (String × JsonVal)) :
    ∀ (schema : List String) (acc : List (String × PyFloat)),
      (∀ n ∈ schema, lookupKey entries1 n = lookupKey entries2 n) →
      validateLoop entries1 schema acc = validateLoop entries2 schema acc := by
  intro schema
  induction schema with
  | nil => intro acc _; rfl
  | cons n rest ih =>
    intro acc hn
    have h2 : lookupKey entries2 n = lookupKey entries1 n := (hn n (by simp)).symm
    simp only [validateLoop, h2]
    cases hl : lookupKey entries1 n with
    | none => rfl
    | some v =>
      cases hf : pyFloatOf v with
      | none => simp [hf]
      | some x =>
        cases hz : x.ltZero with
        | true => simp [hf, hz]
        | false =>
          simp only [hf, hz, Bool.false_eq_true, if_false]
          exact ih (dictInsert acc n x) (fun m hm => hn m (by simp [hm]))

/-- C8: a raw input that passes validation yields a validated dict whose keys
are exactly the schema names in order, and keys outside the schema are
silently ignored — appending any entries whose keys are not schema names
leaves the validation outcome unchanged. -/
theorem validated_keys_exactly_schema (schema : List String)
    (entries extra : List (String × JsonVal)) :
    (∀ d, schema.Nodup → validateLoop entries schema [] = .ok d →
      d.map Prod.fst = schema) ∧
    ((∀ p ∈ extra, p.1 ∉ schema) →
      validateLoop (entries ++ extra) schema [] = validateLoop entries schema []) := by
  constructor
  · intro d hnd h
    have hkeys := validateLoop_ok_keys entries schema [] d hnd (by simp) h
    simpa using hkeys
  · intro hext
    refine validateLoop_congr (entries ++ extra) entries schema [] ?_
    intro n hn
    rw [lookupKey_append]
    cases hl : lookupKey entries n with
    | some v => rfl
    | none =>
      have hnone : lookupKey extra n = none :=
        lookupKey_eq_none_of_no_key extra n
          (fun p hp he => hext p hp (by rw [he]; exact hn))
      simp [hnone]

/-- C8 witness: with schema `["a", "b"]`, a body holding both fields plus an
extra field `"zz"` validates to a dict keyed exactly `["a", "b"]`, and the
extra field changes nothing. -/
theorem validated_keys_exactly_schema_witness :
    ([("a", PyFloat.finite 1), ("b", PyFloat.finite 2)]).map Prod.fst
      = ["a", "b"] ∧
    validateLoop
        ([("a", JsonVal.num (.finite 1)), ("b", JsonVal.num (.finite 2))]
          ++ [("zz", JsonVal.arr)]) ["a", "b"] [] =
      validateLoop
        [("a", JsonVal.num (.finite 1)), ("b", JsonVal.num (.finite 2))]
        ["a", "b"] [] :=
  ⟨(validated_keys_exactly_schema ["a", "b"]
      [("a", JsonVal.num (.finite 1)), ("b", JsonVal.num (.finite 2))]
      [("zz", JsonVal.arr)]).1
      [("a", PyFloat.finite 1), ("b", PyFloat.finite 2)] (by decide) rfl,
   (validated_keys_exactly_schema ["a", "b"]
      [("a", JsonVal.num (.finite 1)), ("b", JsonVal.num (.finite 2))]
      [("zz", JsonVal.arr)]).2 (by decide)⟩

/-! ## C9: non-finite values pass validation -/

/-- A request body mapping every schema field to the same string value. -/
def constBody (schema : List String) (s : String) : List (String × JsonVal) :=
  schema.map (fun n => (n, JsonVal.str s))

lemma lookupKey_constBody (s : String) :
    ∀ (schema : List String), ∀ n ∈ schema,
      lookupKey (constBody schema s) n = some (JsonVal.str s) := by
  intro schema
  induction schema with
  | nil => intro n hn; simp at hn
  | cons m rest ih =>
    intro n hn
    by_cases hm : m = n
    · simp [constBody, lookupKey, hm]
    · have hr : n ∈ rest := by
        rcases List.mem_cons.1 hn with h | h
        · exact absurd h.symm hm
        · exact h
      simp only [constBody, List.map_cons, lookupKey, if_neg hm]
      exact ih n hr

lemma mem_dictInsert_val (d : List (String × PyFloat)) (k : String) (v : PyFloat)
    (p : String × PyFloat) (hp : p ∈ dictInsert d k v) : p.2 = v ∨ p ∈ d := by
  unfold dictInsert at hp
  split_ifs at hp with h
  · obtain ⟨q, hq, hq2⟩ := List.mem_map.1 hp
    by_cases hqk : q.1 = k
    · left; rw [← hq2]; simp [hqk]
    · right; rw [← hq2]; simp only [if_neg hqk]; exact hq
  · rcases List.mem_append.1 hp with h1 | h1
    · right; exact h1
    · left
      simp only [List.mem_singleton] at h1
      rw [h1]

lemma validateLoop_const_values (s : String) (v : PyFloat)
    (hv : pyParseFloat s = some v) (hz : v.ltZero = false)
    (entries : List (String × JsonVal)) :
    ∀ (schema : List String),
      (∀ n ∈ schema, lookupKey entries n = some (.str s)) →
      ∀ (acc : List (String × PyFloat)), (∀ p ∈ acc, p.2 = v) →
      ∃ d, validateLoop entries schema acc = .ok d ∧ ∀ p ∈ d, p.2 = v := by
  intro schema
  induction schema with
  | nil => intro _ acc hacc; exact ⟨acc, rfl, hacc⟩
  | cons n rest ih =>
    intro hl acc hacc
    have h0 := hl n (by simp)
    have hpf : pyFloatOf (JsonVal.str s) = some v := hv
    obtain ⟨d, hd, hdv⟩ := ih (fun m hm => hl m (by simp [hm])) (dictInsert acc n v)
      (fun p hp => (mem_dictInsert_val acc n v p hp).elim id (fun h => hacc p h))
    refine ⟨d, ?_, hdv⟩
    simp only [validateLoop, h0, hpf, hz, Bool.false_eq_true, if_false]
    exact hd

/-- Whether a validation outcome is a success. -/
def isOkV : Except ValidationError (List (String × PyFloat)) → Bool
  | .ok _ => true
  | .error _ => false

/-- The validated values of a validation outcome (empty on failure). -/
def okValues : Except ValidationError (List (String × PyFloat)) → List PyFloat
  | .ok d => d.map Prod.snd
  | .error _ => []

/-- C9: inputs whose field values are non-finite pass validation — mapping
every schema field to the string `"nan"` (which `float` parses to NaN, and
`NaN < 0` is false) or to `"Infinity"` validates successfully, and every
validated value is non-finite; successful validation therefore does not
guarantee finite feature values. -/
theorem nonfinite_values_pass_validation (schema : List String) :
    (isOkV (validateLoop (constBody schema "nan") schema []) = true ∧
     (okValues (validateLoop (constBody schema "nan") schema [])).all
       (fun x => ! x.isFinite) = true) ∧
    (isOkV (validateLoop (constBody schema "Infinity") schema []) = true ∧
     (okValues (validateLoop (constBody schema "Infinity") schema [])).all
       (fun x => ! x.isFinite) = true) := by
  constructor
  · obtain ⟨d, hd, hdv⟩ := validateLoop_const_values "nan" .nan rfl rfl
      (constBody schema "nan") schema (lookupKey_constBody "nan" schema) [] (by simp)
    rw [hd]
    refine ⟨rfl, ?_⟩
    simp only [okValues, List.all_eq_true]
    intro x hx
    obtain ⟨p, hp, hpx⟩ := List.mem_map.1 hx
    rw [← hpx, hdv p hp]
    rfl
  · obtain ⟨d, hd, hdv⟩ := validateLoop_const_values "Infinity" .inf rfl rfl
      (constBody schema "Infinity") schema
      (lookupKey_constBody "Infinity" schema) [] (by simp)
    rw [hd]
    refine ⟨rfl, ?_⟩
    simp only [okValues, List.all_eq_true]
    intro x hx
    obtain ⟨p, hp, hpx⟩ := List.mem_map.1 hx
    rw [← hpx, hdv p hp]
    rfl

/-! ## C5: the sample-data route -/

lemma lookupKey_dropCol (r : Row) (c : String) :
    lookupKey (dropCol r c) c = none := by
  induction r with
  | nil => rfl
  | cons p rest ih =>
    by_cases hp : p.1 = c
    · simpa [dropCol, List.filter_cons, hp] using ih
    · simpa [dropCol, List.filter_cons, hp, lookupKey] using ih

/-- C5: when the dataset reads successfully, has the `diagnosis` column, and
holds at least one row of each class, `/sample-data` answers `success = true`
with exactly one benign and one malignant sample — the first row of each
class with the `diagnosis` entry stripped (the stripped key is absent from
both samples); on any read failure it answers `success = false` with the
exception text. -/
theorem sample_data_contract :
    (∀ (df : List Row) (rb rm : Row),
      df.all (fun r => (rowVal r "diagnosis").isSome) = true →
      (df.filter (fun r => rowVal r "diagnosis" = some 1)).head? = some rb →
      (df.filter (fun r => rowVal r "diagnosis" = some 0)).head? = some rm →
      fetch_example_metrics (.ok df) =
        { status := 200, success := true,
          benign_sample := some (dropCol rb "diagnosis"),
          malignant_sample := some (dropCol rm "diagnosis") } ∧
      lookupKey (dropCol rb "diagnosis") "diagnosis" = none ∧
      lookupKey (dropCol rm "diagnosis") "diagnosis" = none) ∧
    (∀ e : PyExc, fetch_example_metrics (.error e) =
      { status := 200, success := false, error := some e.message }) := by
  constructor
  · intro df rb rm hall hb hm
    refine ⟨?_, lookupKey_dropCol rb "diagnosis", lookupKey_dropCol rm "diagnosis"⟩
    simp [fetch_example_metrics, sampleTry, hall, hb, hm]
  · intro e
    rfl

/-- C5 witness: a two-row dataset with one benign and one malignant row
yields exactly those two rows, each without its `diagnosis` entry. -/
theorem sample_data_contract_witness :
    fetch_example_metrics
        (.ok [[("diagnosis", 1), ("x", 5)], [("diagnosis", 0), ("x", 7)]]) =
      { status := 200, success := true,
        benign_sample := some (dropCol [("diagnosis", 1), ("x", 5)] "diagnosis"),
        malignant_sample :=
          some (dropCol [("diagnosis", 0), ("x", 7)] "diagnosis") } :=
  (sample_data_contract.1
    [[("diagnosis", 1), ("x", 5)], [("diagnosis", 0), ("x", 7)]]
    [("diagnosis", 1), ("x", 5)] [("diagnosis", 0), ("x", 7)]
    (by decide) (by decide) (by decide)).1

/-! ## C6: the load/train bootstrap -/

/-- C6: the process trace starts with a load attempt; training runs exactly
once when and only when that load fails, followed immediately by a second
load; after a successful load training never appears; and every training
event lies in the bootstrap part of the trace, before any request is
served — request handling contains no training events. -/
theorem bootstrap_load_then_train_once (w : World) (requests : List ReqBody) :
    (appRun w requests).head? = some (.loadAttempt (load_model w)) ∧
    (appRun w requests).count .trainRun = (if load_model w then 0 else 1) ∧
    (load_model w = false →
      (appRun w requests).take 3 =
        [.loadAttempt false, .trainRun, .loadAttempt true]) ∧
    (load_model w = true → AppEvent.trainRun ∉ appRun w requests) ∧
    (∃ boot serve, appRun w requests = boot ++ serve ∧
      (∀ e ∈ serve, e = AppEvent.serveRequest) ∧
      AppEvent.trainRun ∉ serve ∧ AppEvent.serveRequest ∉ boot) := by
  have hserve : ∀ e ∈ requests.map (fun _ => AppEvent.serveRequest),
      e = AppEvent.serveRequest := by
    intro e he
    obtain ⟨r, -, h⟩ := List.mem_map.1 he
    exact h.symm
  have hnotrain : AppEvent.trainRun ∉ requests.map (fun _ => AppEvent.serveRequest) := by
    intro h
    obtain ⟨r, -, hr⟩ := List.mem_map.1 h
    exact absurd hr (by simp)
  have hc0 : (requests.map (fun _ => AppEvent.serveRequest)).count AppEvent.trainRun = 0 :=
    List.count_eq_zero.2 hnotrain
  cases hw : w.modelOnDisk with
  | true =>
    have hlm : load_model w = true := hw
    have htr : appRun w requests =
        AppEvent.loadAttempt true :: requests.map (fun _ => AppEvent.serveRequest) := by
      simp [appRun, bootstrapEngine, load_model, hw]
    refine ⟨?_, ?_, ?_, ?_,
      [AppEvent.loadAttempt true], requests.map (fun _ => AppEvent.serveRequest),
      ?_, hserve, hnotrain, by decide⟩
    · rw [htr, hlm]; rfl
    · rw [htr, hlm]
      simpa [List.count_cons] using hc0
    · intro h
      rw [hlm] at h
      exact absurd h (by decide)
    · intro _
      rw [htr]
      simp only [List.mem_cons, not_or]
      exact ⟨by decide, hnotrain⟩
    · rw [htr]; rfl
  | false =>
    have hlm : load_model w = false := hw
    have htr : appRun w requests =
        AppEvent.loadAttempt false :: AppEvent.trainRun :: AppEvent.loadAttempt true ::
          requests.map (fun _ => AppEvent.serveRequest) := by
      simp [appRun, bootstrapEngine, load_model, train_and_save_model, hw]
    refine ⟨?_, ?_, ?_, ?_,
      [AppEvent.loadAttempt false, AppEvent.trainRun, AppEvent.loadAttempt true],
      requests.map (fun _ => AppEvent.serveRequest),
      ?_, hserve, hnotrain, by decide⟩
    · rw [htr, hlm]; rfl
    · rw [htr, hlm]
      simpa [List.count_cons] using hc0
    · intro _
      rw [htr]
      rfl
    · intro h
      rw [hlm] at h
      exact absurd h (by decide)
    · rw [htr]; rfl

/-- C6 witness: starting with no model on disk and one incoming request, the
trace begins load-fail, train, load-success. -/
theorem bootstrap_load_then_train_once_witness :
    (appRun ⟨false⟩ [ReqBody.null]).take 3 =
      [AppEvent.loadAttempt false, AppEvent.trainRun, AppEvent.loadAttempt true] :=
  (bootstrap_load_then_train_once ⟨false⟩ [ReqBody.null]).2.2.1 rfl
